import Mathlib

/-!
Shallow embedding of `src/ffmpeg.ts` (class `FFMPEG`) from the ffmpeg-ts
repository, together with proofs about its process-lifecycle state machine
and its stderr progress extractor.

JavaScript strings are modelled as `List Char`; JavaScript numbers that can
be `NaN` are modelled by `JSNum`; `null`-able fields are `Option`s.
-/

namespace FfmpegTs

/-- A JavaScript string, modelled as its list of characters. -/
abbrev JSString := List Char

/-- A JavaScript number as produced by `parseInt` / `parseFloat` here:
either a real numeric value (modelled as a rational) or `NaN`. -/
inductive JSNum where
  | nan : JSNum
  | num (q : ℚ) : JSNum
deriving DecidableEq, Repr

/-- `isNaN` on a `JSNum`. -/
def JSNum.isNaN : JSNum → Bool
  | .nan => true
  | .num _ => false

/-- JavaScript `x > 0` on a possibly-`null`, possibly-`NaN` number:
`null > 0` and `NaN > 0` are both `false`. Models the
`this._progress.duration > 0` test in `onStderrData`. -/
def jsGtZero : Option JSNum → Bool
  | some (.num q) => decide (0 < q)
  | _ => false

/-- `\d` of a JavaScript regex: exactly the ASCII digits. -/
def isDigit (c : Char) : Bool := decide ('0' ≤ c) && decide (c ≤ '9')

/-- The whitespace class of a JavaScript regex, by code point: space, tab,
LF, VT, FF, CR, NBSP, Ogham space, U+2000 through U+200A, line and
paragraph separators, NNBSP, MMSP, ideographic space, BOM. -/
def isJsSpace (c : Char) : Bool :=
  c.toNat = 32 || c.toNat = 9 || c.toNat = 10 || c.toNat = 11 ||
  c.toNat = 12 || c.toNat = 13 || c.toNat = 160 || c.toNat = 5760 ||
  (decide (8192 <= c.toNat) && decide (c.toNat <= 8202)) ||
  c.toNat = 8232 || c.toNat = 8233 || c.toNat = 8239 || c.toNat = 8287 ||
  c.toNat = 12288 || c.toNat = 65279

/-- The character class `[\d.]` used by the fps/q/size/bitrate/speed regexes. -/
def isDotDigit (c : Char) : Bool := isDigit c || c = '.'

/-- Numeric value of a string of ASCII digits (most significant first). -/
def digitsToNat (l : JSString) : ℕ :=
  l.foldl (fun n c => n * 10 + (c.toNat - '0'.toNat)) 0

/-- JavaScript `parseInt(s, 10)` restricted to the capture strings produced
by the regexes of `onStderrData`: every such capture is a (possibly empty
never, here nonempty) run of ASCII digits, so no sign/whitespace handling is
needed. The longest digit prefix is parsed; no digits means `NaN`. -/
def parseInt10 (s : JSString) : JSNum :=
  let ds := s.takeWhile isDigit
  if ds.isEmpty then .nan else .num (digitsToNat ds)

/-- Value of a fractional digit string: `"25"` ↦ `25/100`. -/
def fracVal (l : JSString) : ℚ := (digitsToNat l : ℚ) / (10 : ℚ) ^ l.length

/-- JavaScript `parseFloat` restricted to the capture strings produced by
the regexes of `onStderrData`: those consist only of ASCII digits and dots
(`[\d.]+` or `\d+(\.\d+)?`), so sign/whitespace/exponent handling is not
needed. The longest valid decimal-literal prefix is parsed
(`"1.2.3"` ↦ `1.2`, `"1."` ↦ `1`, `".5"` ↦ `0.5`); if no prefix forms a
decimal literal (for example `"."`), the result is `NaN`. -/
def jsParseFloat (s : JSString) : JSNum :=
  let intDigits := s.takeWhile isDigit
  if intDigits.isEmpty then
    match s with
    | '.' :: rest =>
        let fd := rest.takeWhile isDigit
        if fd.isEmpty then .nan else .num (fracVal fd)
    | _ => .nan
  else
    match s.drop intDigits.length with
    | '.' :: rest2 =>
        .num ((digitsToNat intDigits : ℚ) + fracVal (rest2.takeWhile isDigit))
    | _ => .num (digitsToNat intDigits)

/-- Greedy `p+`: the nonempty longest prefix of characters satisfying `p`,
with the remaining suffix; `none` if the first character fails `p`. -/
def takeWhile1 (p : Char → Bool) (l : JSString) : Option (JSString × JSString) :=
  let t := l.takeWhile p
  if t.isEmpty then none else some (t, l.drop t.length)

/-- Match a literal string at the front, returning the remaining suffix. -/
def expects : JSString → JSString → Option JSString
  | [], l => some l
  | _ :: _, [] => none
  | c :: cs, d :: ds => if d = c then expects cs ds else none

/-- Leftmost-match search: try the position matcher `f` at every start
position from left to right and return its first success, as JavaScript
`String.prototype.match` does for these regexes (each of which is
deterministic: its greedy, backtracking-free reading agrees with the
regex's backtracking semantics because adjacent character classes and
literals are disjoint). -/
def firstMatch {α : Type} (f : JSString → Option α) : JSString → Option α
  | [] => f []
  | c :: rest =>
    match f (c :: rest) with
    | some r => some r
    | none => firstMatch f rest

/-- The common tail `(\d+):(\d+):(\d+(\.\d+)?)` of the duration and
elapsed-time regexes, at one position; returns the three captures, the
third including its optional fractional part. -/
def matchHMSAt (l : JSString) : Option (JSString × JSString × JSString) := do
  let (h, l) ← takeWhile1 isDigit l
  let l ← expects [':'] l
  let (m, l) ← takeWhile1 isDigit l
  let l ← expects [':'] l
  let (si, l) ← takeWhile1 isDigit l
  match l with
  | '.' :: rest =>
    match takeWhile1 isDigit rest with
    | some (f, _) => pure (h, m, si ++ '.' :: f)
    | none => pure (h, m, si)
  | _ => pure (h, m, si)

/-- `/Duration: (\d+):(\d+):(\d+(\.\d+)?)/` at one position; returns the
captures `durMatch[1]`, `durMatch[2]`, `durMatch[3]`. -/
def matchDurationAt (l : JSString) : Option (JSString × JSString × JSString) := do
  let l ← expects ("Duration: ".toList) l
  matchHMSAt l

/-- `data.match(/Duration: (\d+):(\d+):(\d+(\.\d+)?)/)`. -/
def matchDuration (data : JSString) : Option (JSString × JSString × JSString) :=
  firstMatch matchDurationAt data

/-- `/frame=\s*(\d+)\s*fps=/` at one position; returns `frameMatch[1]`. -/
def matchFrameAt (l : JSString) : Option JSString := do
  let l ← expects ("frame=".toList) l
  let l := l.dropWhile isJsSpace
  let (d, l) ← takeWhile1 isDigit l
  let l := l.dropWhile isJsSpace
  let _ ← expects ("fps=".toList) l
  pure d

/-- `data.match(/frame=\s*(\d+)\s*fps=/)`. -/
def matchFrame (data : JSString) : Option JSString :=
  firstMatch matchFrameAt data

/-- `/fps=\s*([\d\.]+)\s*q=/` at one position; returns `fpsMatch[1]`. -/
def matchFpsAt (l : JSString) : Option JSString := do
  let l ← expects ("fps=".toList) l
  let l := l.dropWhile isJsSpace
  let (d, l) ← takeWhile1 isDotDigit l
  let l := l.dropWhile isJsSpace
  let _ ← expects ("q=".toList) l
  pure d

/-- `data.match(/fps=\s*([\d\.]+)\s*q=/)`. -/
def matchFps (data : JSString) : Option JSString :=
  firstMatch matchFpsAt data

/-- `/q=\s*([\d\.]+)/` at one position; returns `qMatch[1]`. -/
def matchQAt (l : JSString) : Option JSString := do
  let l ← expects ("q=".toList) l
  let l := l.dropWhile isJsSpace
  let (d, _) ← takeWhile1 isDotDigit l
  pure d

/-- `data.match(/q=\s*([\d\.]+)/)`. -/
def matchQ (data : JSString) : Option JSString :=
  firstMatch matchQAt data

/-- `/size=\s*([\d.]+)kB/` at one position; returns `sizeMatch[1]`. -/
def matchSizeAt (l : JSString) : Option JSString := do
  let l ← expects ("size=".toList) l
  let l := l.dropWhile isJsSpace
  let (d, l) ← takeWhile1 isDotDigit l
  let _ ← expects ("kB".toList) l
  pure d

/-- `data.match(/size=\s*([\d.]+)kB/)`. -/
def matchSize (data : JSString) : Option JSString :=
  firstMatch matchSizeAt data

/-- `/time=(\d+):(\d+):(\d+(\.\d+)?)/` at one position; returns the
captures `timeMatch[1]`, `timeMatch[2]`, `timeMatch[3]`. -/
def matchTimeAt (l : JSString) : Option (JSString × JSString × JSString) := do
  let l ← expects ("time=".toList) l
  matchHMSAt l

/-- `data.match(/time=(\d+):(\d+):(\d+(\.\d+)?)/)`. -/
def matchTime (data : JSString) : Option (JSString × JSString × JSString) :=
  firstMatch matchTimeAt data

/-- `/bitrate=\s*([\d.]+)kbits?\/s/` at one position; returns
`bitrateMatch[1]`. After the literal `kbit`, the optional `s?` followed by
`\/s` matches either `s/s` or `/s`. -/
def matchBitrateAt (l : JSString) : Option JSString := do
  let l ← expects ("bitrate=".toList) l
  let l := l.dropWhile isJsSpace
  let (d, l) ← takeWhile1 isDotDigit l
  let l ← expects ("kbit".toList) l
  match expects ("s/s".toList) l with
  | some _ => pure d
  | none => do
    let _ ← expects ("/s".toList) l
    pure d

/-- `data.match(/bitrate=\s*([\d.]+)kbits?\/s/)`. -/
def matchBitrate (data : JSString) : Option JSString :=
  firstMatch matchBitrateAt data

/-- `/speed=\s*([\d\.]+)x/` at one position; returns `speedMatch[1]`. -/
def matchSpeedAt (l : JSString) : Option JSString := do
  let l ← expects ("speed=".toList) l
  let l := l.dropWhile isJsSpace
  let (d, l) ← takeWhile1 isDotDigit l
  let _ ← expects ("x".toList) l
  pure d

/-- `data.match(/speed=\s*([\d\.]+)x/)`. -/
def matchSpeed (data : JSString) : Option JSString :=
  firstMatch matchSpeedAt data

/-- The `FFMPEGProgress` record of `src/types/ffmpeg.ts`: every field is
`number | null`, starting `null`; a stored number may in principle be
`NaN`, hence `Option JSNum`. -/
structure FFMPEGProgress where
  duration : Option JSNum
  percent : Option JSNum
  frame : Option JSNum
  fps : Option JSNum
  quality : Option JSNum
  sizeKB : Option JSNum
  timeInSeconds : Option JSNum
  bitrateKbps : Option JSNum
  speed : Option JSNum
deriving DecidableEq, Repr

/-- `FFMPEG.EmptyProgress()`: all fields `null`. -/
def EmptyProgress : FFMPEGProgress :=
  { duration := none, percent := none, frame := none, fps := none,
    quality := none, sizeKB := none, timeInSeconds := none,
    bitrateKbps := none, speed := none }

/-- The duration-discovery block of `onStderrData` (lines 52–64): only
while `duration` is `null`, match the duration regex; on a match whose
three numeric captures are all non-`NaN` (the `!isNaN(...)` guard), store
`hours * 3600 + minutes * 60 + seconds`. -/
def stepDuration (p : FFMPEGProgress) (data : JSString) : FFMPEGProgress :=
  if p.duration = none then
    match matchDuration data with
    | some (h, m, s) =>
      match parseInt10 h, parseInt10 m, jsParseFloat s with
      | .num hv, .num mv, .num sv =>
        { p with duration := some (.num (hv * 3600 + mv * 60 + sv)) }
      | _, _, _ => p
    | none => p
  else p

/-- `frame` update: on a match, `parseInt` of the capture is stored
unconditionally. -/
def stepFrame (p : FFMPEGProgress) (data : JSString) : FFMPEGProgress :=
  match matchFrame data with
  | some d => { p with frame := some (parseInt10 d) }
  | none => p

/-- `fps` update: on a match, `parseFloat` of the capture is stored
unconditionally (including a `NaN` result). -/
def stepFps (p : FFMPEGProgress) (data : JSString) : FFMPEGProgress :=
  match matchFps data with
  | some d => { p with fps := some (jsParseFloat d) }
  | none => p

/-- `quality` update: on a match, `parseFloat` of the capture is stored
unconditionally (including a `NaN` result). -/
def stepQuality (p : FFMPEGProgress) (data : JSString) : FFMPEGProgress :=
  match matchQ data with
  | some d => { p with quality := some (jsParseFloat d) }
  | none => p

/-- `sizeKB` update: on a match, `parseFloat` of the capture is stored
unconditionally (including a `NaN` result). -/
def stepSize (p : FFMPEGProgress) (data : JSString) : FFMPEGProgress :=
  match matchSize data with
  | some d => { p with sizeKB := some (jsParseFloat d) }
  | none => p

/-- The elapsed-time block of `onStderrData` (lines 93–105): on a match
whose numeric captures are all non-`NaN`, store
`hours * 3600 + minutes * 60 + seconds` into `timeInSeconds`, and if
`duration > 0` (false for `null` and `NaN`) recompute
`percent = timeInSeconds / duration * 100`. -/
def stepTime (p : FFMPEGProgress) (data : JSString) : FFMPEGProgress :=
  match matchTime data with
  | some (h, m, s) =>
    match parseInt10 h, parseInt10 m, jsParseFloat s with
    | .num hv, .num mv, .num sv =>
      let t : ℚ := hv * 3600 + mv * 60 + sv
      let p := { p with timeInSeconds := some (.num t) }
      if jsGtZero p.duration then
        match p.duration with
        | some (.num d) => { p with percent := some (.num (t / d * 100)) }
        | _ => p
      else p
    | _, _, _ => p
  | none => p

/-- `bitrateKbps` update: on a match, `parseFloat` of the capture is stored
unconditionally (including a `NaN` result). -/
def stepBitrate (p : FFMPEGProgress) (data : JSString) : FFMPEGProgress :=
  match matchBitrate data with
  | some d => { p with bitrateKbps := some (jsParseFloat d) }
  | none => p

/-- `speed` update: on a match, `parseFloat` of the capture is stored
unconditionally (including a `NaN` result). -/
def stepSpeed (p : FFMPEGProgress) (data : JSString) : FFMPEGProgress :=
  match matchSpeed data with
  | some d => { p with speed := some (jsParseFloat d) }
  | none => p

/-- The progress-tracking block of `onStderrData` (lines 66–117), in source
order: frame, fps, quality, size, time (with percent), bitrate, speed. -/
def trackProgress (p : FFMPEGProgress) (data : JSString) : FFMPEGProgress :=
  stepSpeed
    (stepBitrate
      (stepTime
        (stepSize
          (stepQuality
            (stepFps
              (stepFrame p data) data) data) data) data) data) data

/-- `onStderrData(data)` (lines 51–121): duration discovery, then — if and
only if `duration` is now non-`null` — the field updates followed by
`this._emit("progress", this.progress)`. The second component is the
emitted snapshot copy (`none` when no `progress` event is emitted). -/
def onStderrData (p : FFMPEGProgress) (data : JSString) :
    FFMPEGProgress × Option FFMPEGProgress :=
  let p := stepDuration p data
  if p.duration ≠ none then
    let p := trackProgress p data
    (p, some p)
  else
    (p, none)

/-- `FFMPEG.MAX_STDERR_LENGTH`. -/
def MAX_STDERR_LENGTH : ℕ := 32000

/-- The failure payload `FFMPEGSpawnErr` of `src/types/ffmpeg.ts`:
`{ code: number; message: string }`. -/
structure FFMPEGSpawnErr where
  code : ℤ
  message : JSString
deriving DecidableEq, Repr

/-- The `Result<void, FFMPEGSpawnErr>` that `start()` resolves to. -/
inductive StartResult where
  | ok : StartResult
  | err (e : FFMPEGSpawnErr) : StartResult
deriving DecidableEq, Repr

/-- The mutable state of one `FFMPEG` instance. The live child-process
handle carries no data the model needs, so it is `Option Unit`: `some ()`
iff `this.child !== null`. -/
structure FFMPEG where
  args : List JSString
  child : Option Unit
  lastStderr : JSString
  _progress : FFMPEGProgress
  _killed : Bool
  execPath : JSString
deriving DecidableEq, Repr

/-- The constructor `new FFMPEG(args, { execPath })`:
`child = null`, `lastStderr = ""`, progress empty, `_killed = false`,
`execPath` defaulting to `"ffmpeg"`. -/
def FFMPEG.new (args : List JSString) (execPath : Option JSString) : FFMPEG :=
  { args := args, child := none, lastStderr := [],
    _progress := EmptyProgress, _killed := false,
    execPath := execPath.getD ("ffmpeg".toList) }

/-- The getter `processing`: `this.child !== null`. -/
def FFMPEG.processing (s : FFMPEG) : Bool := s.child.isSome

/-- The getter `killed`. -/
def FFMPEG.killed (s : FFMPEG) : Bool := s._killed

/-- The getter `progress`: a copy of the snapshot (copies are values
here, so it is the snapshot value itself). -/
def FFMPEG.progress (s : FFMPEG) : FFMPEGProgress := s._progress

/-- Outcome of the external `spawn` call: a live handle, or a thrown
error whose `String(e)` rendering is `msg`. -/
inductive SpawnOutcome where
  | ok : SpawnOutcome
  | fail (msg : JSString) : SpawnOutcome
deriving DecidableEq, Repr

/-- What the synchronous part of `start()` produces: an immediately
resolved result, or a running process awaiting its close/error event. -/
inductive StartOutcome where
  | immediate (r : StartResult) : StartOutcome
  | running : StartOutcome
deriving DecidableEq, Repr

/-- The synchronous part of `start()` (lines 123–137): reject when already
processing (before any state is touched); otherwise reset `lastStderr` and
the snapshot, then spawn. A throwing spawn leaves `child` unset (`null`)
and resolves immediately with code `-1` and `String(e)`; a successful
spawn stores the handle and leaves the promise pending. -/
def FFMPEG.start (s : FFMPEG) (spawn : SpawnOutcome) : FFMPEG × StartOutcome :=
  if s.processing then
    (s, .immediate (.err { code := -1,
                           message := "FFMPEG process already started".toList }))
  else
    let s := { s with lastStderr := [], _progress := EmptyProgress }
    match spawn with
    | .fail msg => (s, .immediate (.err { code := -1, message := msg }))
    | .ok => ({ s with child := some () }, .running)

/-- The event that resolves a pending `start()`: the child's `close` event
with exit code `number | null`, or its `error` event with a message. -/
inductive ExitEvent where
  | close (code : Option ℤ) : ExitEvent
  | error (msg : JSString) : ExitEvent
deriving DecidableEq, Repr

/-- The `close`/`error` listeners of `start()` (lines 157–172). Both first
set `this.child = null`, then resolve: `close` with `ok()` exactly when
`code === 0`, otherwise `err({ code: code ?? -1, message: this.lastStderr })`;
`error` with `err({ code: -1, message: e.message })`. -/
def FFMPEG.resolveStart (s : FFMPEG) (ev : ExitEvent) : FFMPEG × StartResult :=
  match ev with
  | .close code =>
    ({ s with child := none },
     if code = some 0 then .ok
     else .err { code := code.getD (-1), message := s.lastStderr })
  | .error msg =>
    ({ s with child := none }, .err { code := -1, message := msg })

/-- `stop(signal?)` (lines 175–183). The runtime's answer to
`this.child.kill(signal)` is the external input `killAccepted`; it is
consulted only when the kill is actually issued. Returns
(new state, returned boolean, whether the kill signal was issued). -/
def FFMPEG.stop (s : FFMPEG) (killAccepted : Bool) : FFMPEG × Bool × Bool :=
  if s.child.isSome && !s._killed then
    if killAccepted then ({ s with _killed := true }, true, true)
    else (s, false, true)
  else (s, false, false)

/-- An event observable on the instance's emitter. -/
inductive Event where
  | stdoutData (data : JSString) : Event
  | stderrData (data : JSString) : Event
  | progressEvent (p : FFMPEGProgress) : Event
deriving DecidableEq, Repr

/-- The buffer update of the `stderr` listener (lines 148–152): append the
chunk to `lastStderr`; if the result exceeds `MAX_STDERR_LENGTH`, keep only
its trailing `MAX_STDERR_LENGTH` characters (`slice(-MAX_STDERR_LENGTH)`). -/
def bufStep (buf data : JSString) : JSString :=
  let b := buf ++ data
  if MAX_STDERR_LENGTH < b.length then b.drop (b.length - MAX_STDERR_LENGTH)
  else b

/-- The `stderr` `data` listener registered by `start()` (lines 145–155):
emit the chunk verbatim, append it to `lastStderr` and truncate via
`bufStep`, then run `onStderrData` (which may emit a `progress` snapshot).
Returns the new state and the events emitted, in emission order. -/
def FFMPEG.onStderrEvent (s : FFMPEG) (data : JSString) : FFMPEG × List Event :=
  let buf := bufStep s.lastStderr data
  let pe := onStderrData s._progress data
  ({ s with lastStderr := buf, _progress := pe.1 },
   Event.stderrData data ::
     (match pe.2 with
      | some q => [Event.progressEvent q]
      | none => []))

/-! ### Field-preservation lemmas for the extraction steps

Each step function writes only its own field(s); these record that every
other field of the snapshot is left unchanged. -/

@[simp] lemma stepFrame_duration (p : FFMPEGProgress) (data : JSString) :
    (stepFrame p data).duration = p.duration := by
  unfold stepFrame; split <;> rfl

@[simp] lemma stepFrame_percent (p : FFMPEGProgress) (data : JSString) :
    (stepFrame p data).percent = p.percent := by
  unfold stepFrame; split <;> rfl

@[simp] lemma stepFrame_fps (p : FFMPEGProgress) (data : JSString) :
    (stepFrame p data).fps = p.fps := by
  unfold stepFrame; split <;> rfl

@[simp] lemma stepFrame_quality (p : FFMPEGProgress) (data : JSString) :
    (stepFrame p data).quality = p.quality := by
  unfold stepFrame; split <;> rfl

@[simp] lemma stepFrame_sizeKB (p : FFMPEGProgress) (data : JSString) :
    (stepFrame p data).sizeKB = p.sizeKB := by
  unfold stepFrame; split <;> rfl

@[simp] lemma stepFrame_timeInSeconds (p : FFMPEGProgress) (data : JSString) :
    (stepFrame p data).timeInSeconds = p.timeInSeconds := by
  unfold stepFrame; split <;> rfl

@[simp] lemma stepFrame_bitrateKbps (p : FFMPEGProgress) (data : JSString) :
    (stepFrame p data).bitrateKbps = p.bitrateKbps := by
  unfold stepFrame; split <;> rfl

@[simp] lemma stepFrame_speed (p : FFMPEGProgress) (data : JSString) :
    (stepFrame p data).speed = p.speed := by
  unfold stepFrame; split <;> rfl

@[simp] lemma stepFps_duration (p : FFMPEGProgress) (data : JSString) :
    (stepFps p data).duration = p.duration := by
  unfold stepFps; split <;> rfl

@[simp] lemma stepFps_percent (p : FFMPEGProgress) (data : JSString) :
    (stepFps p data).percent = p.percent := by
  unfold stepFps; split <;> rfl

@[simp] lemma stepFps_frame (p : FFMPEGProgress) (data : JSString) :
    (stepFps p data).frame = p.frame := by
  unfold stepFps; split <;> rfl

@[simp] lemma stepFps_quality (p : FFMPEGProgress) (data : JSString) :
    (stepFps p data).quality = p.quality := by
  unfold stepFps; split <;> rfl

@[simp] lemma stepFps_sizeKB (p : FFMPEGProgress) (data : JSString) :
    (stepFps p data).sizeKB = p.sizeKB := by
  unfold stepFps; split <;> rfl

@[simp] lemma stepFps_timeInSeconds (p : FFMPEGProgress) (data : JSString) :
    (stepFps p data).timeInSeconds = p.timeInSeconds := by
  unfold stepFps; split <;> rfl

@[simp] lemma stepFps_bitrateKbps (p : FFMPEGProgress) (data : JSString) :
    (stepFps p data).bitrateKbps = p.bitrateKbps := by
  unfold stepFps; split <;> rfl

@[simp] lemma stepFps_speed (p : FFMPEGProgress) (data : JSString) :
    (stepFps p data).speed = p.speed := by
  unfold stepFps; split <;> rfl

@[simp] lemma stepQuality_duration (p : FFMPEGProgress) (data : JSString) :
    (stepQuality p data).duration = p.duration := by
  unfold stepQuality; split <;> rfl

@[simp] lemma stepQuality_percent (p : FFMPEGProgress) (data : JSString) :
    (stepQuality p data).percent = p.percent := by
  unfold stepQuality; split <;> rfl

@[simp] lemma stepQuality_frame (p : FFMPEGProgress) (data : JSString) :
    (stepQuality p data).frame = p.frame := by
  unfold stepQuality; split <;> rfl

@[simp] lemma stepQuality_fps (p : FFMPEGProgress) (data : JSString) :
    (stepQuality p data).fps = p.fps := by
  unfold stepQuality; split <;> rfl

@[simp] lemma stepQuality_sizeKB (p : FFMPEGProgress) (data : JSString) :
    (stepQuality p data).sizeKB = p.sizeKB := by
  unfold stepQuality; split <;> rfl

@[simp] lemma stepQuality_timeInSeconds (p : FFMPEGProgress) (data : JSString) :
    (stepQuality p data).timeInSeconds = p.timeInSeconds := by
  unfold stepQuality; split <;> rfl

@[simp] lemma stepQuality_bitrateKbps (p : FFMPEGProgress) (data : JSString) :
    (stepQuality p data).bitrateKbps = p.bitrateKbps := by
  unfold stepQuality; split <;> rfl

@[simp] lemma stepQuality_speed (p : FFMPEGProgress) (data : JSString) :
    (stepQuality p data).speed = p.speed := by
  unfold stepQuality; split <;> rfl

@[simp] lemma stepSize_duration (p : FFMPEGProgress) (data : JSString) :
    (stepSize p data).duration = p.duration := by
  unfold stepSize; split <;> rfl

@[simp] lemma stepSize_percent (p : FFMPEGProgress) (data : JSString) :
    (stepSize p data).percent = p.percent := by
  unfold stepSize; split <;> rfl

@[simp] lemma stepSize_frame (p : FFMPEGProgress) (data : JSString) :
    (stepSize p data).frame = p.frame := by
  unfold stepSize; split <;> rfl

@[simp] lemma stepSize_fps (p : FFMPEGProgress) (data : JSString) :
    (stepSize p data).fps = p.fps := by
  unfold stepSize; split <;> rfl

@[simp] lemma stepSize_quality (p : FFMPEGProgress) (data : JSString) :
    (stepSize p data).quality = p.quality := by
  unfold stepSize; split <;> rfl

@[simp] lemma stepSize_timeInSeconds (p : FFMPEGProgress) (data : JSString) :
    (stepSize p data).timeInSeconds = p.timeInSeconds := by
  unfold stepSize; split <;> rfl

@[simp] lemma stepSize_bitrateKbps (p : FFMPEGProgress) (data : JSString) :
    (stepSize p data).bitrateKbps = p.bitrateKbps := by
  unfold stepSize; split <;> rfl

@[simp] lemma stepSize_speed (p : FFMPEGProgress) (data : JSString) :
    (stepSize p data).speed = p.speed := by
  unfold stepSize; split <;> rfl

@[simp] lemma stepTime_duration (p : FFMPEGProgress) (data : JSString) :
    (stepTime p data).duration = p.duration := by
  unfold stepTime; repeat' first | split | dsimp only []

@[simp] lemma stepTime_frame (p : FFMPEGProgress) (data : JSString) :
    (stepTime p data).frame = p.frame := by
  unfold stepTime; repeat' first | split | dsimp only []

@[simp] lemma stepTime_fps (p : FFMPEGProgress) (data : JSString) :
    (stepTime p data).fps = p.fps := by
  unfold stepTime; repeat' first | split | dsimp only []

@[simp] lemma stepTime_quality (p : FFMPEGProgress) (data : JSString) :
    (stepTime p data).quality = p.quality := by
  unfold stepTime; repeat' first | split | dsimp only []

@[simp] lemma stepTime_sizeKB (p : FFMPEGProgress) (data : JSString) :
    (stepTime p data).sizeKB = p.sizeKB := by
  unfold stepTime; repeat' first | split | dsimp only []

@[simp] lemma stepTime_bitrateKbps (p : FFMPEGProgress) (data : JSString) :
    (stepTime p data).bitrateKbps = p.bitrateKbps := by
  unfold stepTime; repeat' first | split | dsimp only []

@[simp] lemma stepTime_speed (p : FFMPEGProgress) (data : JSString) :
    (stepTime p data).speed = p.speed := by
  unfold stepTime; repeat' first | split | dsimp only []

@[simp] lemma stepBitrate_duration (p : FFMPEGProgress) (data : JSString) :
    (stepBitrate p data).duration = p.duration := by
  unfold stepBitrate; split <;> rfl

@[simp] lemma stepBitrate_percent (p : FFMPEGProgress) (data : JSString) :
    (stepBitrate p data).percent = p.percent := by
  unfold stepBitrate; split <;> rfl

@[simp] lemma stepBitrate_frame (p : FFMPEGProgress) (data : JSString) :
    (stepBitrate p data).frame = p.frame := by
  unfold stepBitrate; split <;> rfl

@[simp] lemma stepBitrate_fps (p : FFMPEGProgress) (data : JSString) :
    (stepBitrate p data).fps = p.fps := by
  unfold stepBitrate; split <;> rfl

@[simp] lemma stepBitrate_quality (p : FFMPEGProgress) (data : JSString) :
    (stepBitrate p data).quality = p.quality := by
  unfold stepBitrate; split <;> rfl

@[simp] lemma stepBitrate_sizeKB (p : FFMPEGProgress) (data : JSString) :
    (stepBitrate p data).sizeKB = p.sizeKB := by
  unfold stepBitrate; split <;> rfl

@[simp] lemma stepBitrate_timeInSeconds (p : FFMPEGProgress) (data : JSString) :
    (stepBitrate p data).timeInSeconds = p.timeInSeconds := by
  unfold stepBitrate; split <;> rfl

@[simp] lemma stepBitrate_speed (p : FFMPEGProgress) (data : JSString) :
    (stepBitrate p data).speed = p.speed := by
  unfold stepBitrate; split <;> rfl

@[simp] lemma stepSpeed_duration (p : FFMPEGProgress) (data : JSString) :
    (stepSpeed p data).duration = p.duration := by
  unfold stepSpeed; split <;> rfl

@[simp] lemma stepSpeed_percent (p : FFMPEGProgress) (data : JSString) :
    (stepSpeed p data).percent = p.percent := by
  unfold stepSpeed; split <;> rfl

@[simp] lemma stepSpeed_frame (p : FFMPEGProgress) (data : JSString) :
    (stepSpeed p data).frame = p.frame := by
  unfold stepSpeed; split <;> rfl

@[simp] lemma stepSpeed_fps (p : FFMPEGProgress) (data : JSString) :
    (stepSpeed p data).fps = p.fps := by
  unfold stepSpeed; split <;> rfl

@[simp] lemma stepSpeed_quality (p : FFMPEGProgress) (data : JSString) :
    (stepSpeed p data).quality = p.quality := by
  unfold stepSpeed; split <;> rfl

@[simp] lemma stepSpeed_sizeKB (p : FFMPEGProgress) (data : JSString) :
    (stepSpeed p data).sizeKB = p.sizeKB := by
  unfold stepSpeed; split <;> rfl

@[simp] lemma stepSpeed_timeInSeconds (p : FFMPEGProgress) (data : JSString) :
    (stepSpeed p data).timeInSeconds = p.timeInSeconds := by
  unfold stepSpeed; split <;> rfl

@[simp] lemma stepSpeed_bitrateKbps (p : FFMPEGProgress) (data : JSString) :
    (stepSpeed p data).bitrateKbps = p.bitrateKbps := by
  unfold stepSpeed; split <;> rfl

@[simp] lemma stepDuration_percent (p : FFMPEGProgress) (data : JSString) :
    (stepDuration p data).percent = p.percent := by
  unfold stepDuration; repeat' first | split | dsimp only []

@[simp] lemma stepDuration_frame (p : FFMPEGProgress) (data : JSString) :
    (stepDuration p data).frame = p.frame := by
  unfold stepDuration; repeat' first | split | dsimp only []

@[simp] lemma stepDuration_fps (p : FFMPEGProgress) (data : JSString) :
    (stepDuration p data).fps = p.fps := by
  unfold stepDuration; repeat' first | split | dsimp only []

@[simp] lemma stepDuration_quality (p : FFMPEGProgress) (data : JSString) :
    (stepDuration p data).quality = p.quality := by
  unfold stepDuration; repeat' first | split | dsimp only []

@[simp] lemma stepDuration_sizeKB (p : FFMPEGProgress) (data : JSString) :
    (stepDuration p data).sizeKB = p.sizeKB := by
  unfold stepDuration; repeat' first | split | dsimp only []

@[simp] lemma stepDuration_timeInSeconds (p : FFMPEGProgress) (data : JSString) :
    (stepDuration p data).timeInSeconds = p.timeInSeconds := by
  unfold stepDuration; repeat' first | split | dsimp only []

@[simp] lemma stepDuration_bitrateKbps (p : FFMPEGProgress) (data : JSString) :
    (stepDuration p data).bitrateKbps = p.bitrateKbps := by
  unfold stepDuration; repeat' first | split | dsimp only []

@[simp] lemma stepDuration_speed (p : FFMPEGProgress) (data : JSString) :
    (stepDuration p data).speed = p.speed := by
  unfold stepDuration; repeat' first | split | dsimp only []

/-- Once `duration` is non-`null`, `stepDuration` is the identity. -/
lemma stepDuration_of_some (p : FFMPEGProgress) (data : JSString)
    (h : p.duration ≠ none) : stepDuration p data = p := by
  unfold stepDuration
  simp [h]

/-- `stepDuration` leaves `duration` alone or sets it to a non-`NaN`
number. -/
lemma stepDuration_duration_cases (p : FFMPEGProgress) (data : JSString) :
    (stepDuration p data).duration = p.duration ∨
    ∃ q : ℚ, (stepDuration p data).duration = some (.num q) := by
  unfold stepDuration
  repeat' split
  all_goals simp

/-! ### Lemmas about `trackProgress` and `onStderrData` -/

@[simp] lemma trackProgress_duration (p : FFMPEGProgress) (data : JSString) :
    (trackProgress p data).duration = p.duration := by
  unfold trackProgress
  simp

/-- `onStderrData`, with its `let`-bindings unfolded. -/
lemma onStderrData_eq (p : FFMPEGProgress) (data : JSString) :
    onStderrData p data =
      if (stepDuration p data).duration ≠ none then
        (trackProgress (stepDuration p data) data,
         some (trackProgress (stepDuration p data) data))
      else (stepDuration p data, none) := rfl

lemma onStderrData_duration_of_some (p : FFMPEGProgress) (data : JSString)
    (h : p.duration ≠ none) :
    ((onStderrData p data).1).duration = p.duration := by
  rw [onStderrData_eq, stepDuration_of_some p data h, if_pos h]
  simp

/-- The `progress` emission of `onStderrData`: a snapshot is emitted iff
the post-state knows a duration, and the emitted snapshot is the
post-state. -/
lemma onStderrData_emit (p : FFMPEGProgress) (data : JSString) :
    (((onStderrData p data).1).duration ≠ none →
      (onStderrData p data).2 = some (onStderrData p data).1) ∧
    (((onStderrData p data).1).duration = none →
      (onStderrData p data).2 = none) := by
  unfold onStderrData
  by_cases h : (stepDuration p data).duration = none <;> simp [h]

/-- The percent/duration invariant: `percent` is non-`null` only when
`duration` is a strictly positive number. -/
def PercentInv (p : FFMPEGProgress) : Prop :=
  ∀ x, p.percent = some x → ∃ d : ℚ, p.duration = some (.num d) ∧ 0 < d

lemma percentInv_empty : PercentInv EmptyProgress := by
  intro x hx
  simp [EmptyProgress] at hx

lemma stepTime_percentInv (p : FFMPEGProgress) (data : JSString)
    (hp : PercentInv p) : PercentInv (stepTime p data) := by
  unfold stepTime
  cases hmt : matchTime data with
  | none => exact hp
  | some r =>
    obtain ⟨h, m, s⟩ := r
    dsimp only
    cases hh : parseInt10 h with
    | nan => exact hp
    | num hv =>
      cases hm : parseInt10 m with
      | nan => exact hp
      | num mv =>
        cases hs : jsParseFloat s with
        | nan => exact hp
        | num sv =>
          dsimp only
          split
          · rename_i hgt
            split
            · rename_i d hd
              intro x hx
              refine ⟨d, by simp [hd], ?_⟩
              rw [hd] at hgt
              simpa [jsGtZero] using hgt
            · intro x hx
              simp only at hx
              obtain ⟨d, hd, hdpos⟩ := hp x hx
              exact ⟨d, by simp [hd], hdpos⟩
          · intro x hx
            simp only at hx
            obtain ⟨d, hd, hdpos⟩ := hp x hx
            exact ⟨d, by simp [hd], hdpos⟩

lemma onStderrData_percentInv (p : FFMPEGProgress) (data : JSString)
    (hp : PercentInv p) : PercentInv ((onStderrData p data).1) := by
  rw [onStderrData_eq]
  split
  case _ =>
    have h1 : PercentInv (stepDuration p data) := by
      intro x hx
      rw [stepDuration_percent] at hx
      obtain ⟨d, hd, hdpos⟩ := hp x hx
      refine ⟨d, ?_, hdpos⟩
      rw [stepDuration_of_some p data (by rw [hd]; exact Option.noConfusion)]
      exact hd
    have h2 : PercentInv (stepFrame (stepDuration p data) data) := by
      intro x hx
      rw [stepFrame_percent] at hx
      obtain ⟨d, hd, hdpos⟩ := h1 x hx
      exact ⟨d, by simpa using hd, hdpos⟩
    have h3 : PercentInv (stepFps (stepFrame (stepDuration p data) data) data) := by
      intro x hx
      rw [stepFps_percent] at hx
      obtain ⟨d, hd, hdpos⟩ := h2 x hx
      exact ⟨d, by simpa using hd, hdpos⟩
    have h4 : PercentInv (stepQuality (stepFps (stepFrame (stepDuration p data) data) data) data) := by
      intro x hx
      rw [stepQuality_percent] at hx
      obtain ⟨d, hd, hdpos⟩ := h3 x hx
      exact ⟨d, by simpa using hd, hdpos⟩
    have h5 : PercentInv (stepSize (stepQuality (stepFps (stepFrame (stepDuration p data) data) data) data) data) := by
      intro x hx
      rw [stepSize_percent] at hx
      obtain ⟨d, hd, hdpos⟩ := h4 x hx
      exact ⟨d, by simpa using hd, hdpos⟩
    have h6 := stepTime_percentInv _ data h5
    intro x hx
    unfold trackProgress
    unfold trackProgress at hx
    rw [stepSpeed_percent, stepBitrate_percent] at hx
    obtain ⟨d, hd, hdpos⟩ := h6 x hx
    exact ⟨d, by simpa using hd, hdpos⟩
  case _ =>
    intro x hx
    simp only [stepDuration_percent] at hx
    obtain ⟨d, hd, hdpos⟩ := hp x hx
    refine ⟨d, ?_, hdpos⟩
    rw [stepDuration_of_some p data (by rw [hd]; exact Option.noConfusion)]
    exact hd

/-- Fold of `onStderrData` over the chunks of a run. -/
def applyChunks (p : FFMPEGProgress) (chunks : List JSString) : FFMPEGProgress :=
  chunks.foldl (fun q d => (onStderrData q d).1) p

lemma applyChunks_percentInv (chunks : List JSString) :
    ∀ p : FFMPEGProgress, PercentInv p → PercentInv (applyChunks p chunks) := by
  induction chunks with
  | nil => intro p hp; exact hp
  | cons d rest ih =>
    intro p hp
    exact ih _ (onStderrData_percentInv p d hp)

/-! ### The trailing-error buffer -/

lemma bufStep_length (buf data : JSString) :
    (bufStep buf data).length ≤ MAX_STDERR_LENGTH := by
  unfold bufStep
  dsimp only
  split
  · rename_i h
    rw [List.length_drop]
    omega
  · rename_i h
    omega

/-- Folding `bufStep` over chunks yields exactly the trailing
`MAX_STDERR_LENGTH` characters of the concatenated text. -/
lemma foldl_bufStep (chunks : List JSString) :
    ∀ buf : JSString, buf.length ≤ MAX_STDERR_LENGTH →
      chunks.foldl bufStep buf =
        (buf ++ chunks.flatten).drop
          ((buf ++ chunks.flatten).length - MAX_STDERR_LENGTH) := by
  induction chunks with
  | nil =>
    intro buf h
    simp [Nat.sub_eq_zero_of_le h]
  | cons d rest ih =>
    intro buf h
    rw [List.foldl_cons, ih (bufStep buf d) (bufStep_length buf d)]
    have hstep : ∃ k : ℕ, k ≤ (buf ++ d).length ∧
        bufStep buf d = (buf ++ d).drop k ∧
        k = (buf ++ d).length - MAX_STDERR_LENGTH := by
      unfold bufStep
      dsimp only
      split
      · rename_i hgt
        exact ⟨(buf ++ d).length - MAX_STDERR_LENGTH, by omega, rfl, rfl⟩
      · rename_i hle
        exact ⟨0, by omega, by simp, by omega⟩
    obtain ⟨k, hk, hbd, hkval⟩ := hstep
    rw [hbd, List.flatten_cons, ← List.append_assoc]
    have hlen2 : ((buf ++ d).drop k ++ rest.flatten).length =
        ((buf ++ d).length - k) + rest.flatten.length := by
      rw [List.length_append, List.length_drop]
    rw [hlen2, ← List.drop_append_of_le_length hk, List.drop_drop]
    have harith : k + ((buf ++ d).length - k + rest.flatten.length -
          MAX_STDERR_LENGTH) =
        ((buf ++ d) ++ rest.flatten).length - MAX_STDERR_LENGTH := by
      rw [List.length_append (buf ++ d) rest.flatten]
      omega
    rw [harith]

/-- The `lastStderr` field of a folded run of the `stderr` listener is the
fold of `bufStep` over the chunks. -/
lemma runFold_lastStderr (chunks : List JSString) :
    ∀ s : FFMPEG,
      (chunks.foldl (fun t d => (t.onStderrEvent d).1) s).lastStderr =
        chunks.foldl bufStep s.lastStderr := by
  induction chunks with
  | nil => intro s; rfl
  | cons d rest ih =>
    intro s
    rw [List.foldl_cons, List.foldl_cons, ih]
    rfl

/-! ### Wellformedness of regex captures

The digit-based captures of the duration/time regexes always parse: the
`isNaN` guards in `onStderrData` can never fire. -/

lemma takeWhile1_some {p : Char → Bool} {l t r : JSString}
    (h : takeWhile1 p l = some (t, r)) : t ≠ [] ∧ ∀ c ∈ t, p c = true := by
  unfold takeWhile1 at h
  dsimp only at h
  split at h
  · exact absurd h (by simp)
  · rename_i hne
    simp only [Option.some.injEq, Prod.mk.injEq] at h
    obtain ⟨ht, hr⟩ := h
    subst ht
    refine ⟨?_, fun c hc => List.mem_takeWhile_imp hc⟩
    intro hempty
    rw [hempty] at hne
    simp at hne

lemma parseInt10_digits {s : JSString} (hne : s ≠ [])
    (hd : ∀ c ∈ s, isDigit c = true) :
    parseInt10 s = .num (digitsToNat s) := by
  unfold parseInt10
  dsimp only
  rw [List.takeWhile_eq_self_iff.mpr hd]
  simp [hne]

lemma jsParseFloat_digits {s : JSString} (hne : s ≠ [])
    (hd : ∀ c ∈ s, isDigit c = true) :
    jsParseFloat s = .num (digitsToNat s) := by
  unfold jsParseFloat
  dsimp only
  rw [List.takeWhile_eq_self_iff.mpr hd]
  rw [if_neg (by simp [hne])]
  rw [List.drop_length]

lemma takeWhile_append_stop {p : Char → Bool} {a : JSString} {c : Char}
    {r : JSString} (hda : ∀ x ∈ a, p x = true) (hc : p c = false) :
    (a ++ c :: r).takeWhile p = a := by
  induction a with
  | nil => simp [List.takeWhile_cons, hc]
  | cons x xs ih =>
    have hx : p x = true := hda x (by simp)
    simp only [List.cons_append, List.takeWhile_cons, hx, if_true]
    rw [ih (fun y hy => hda y (by simp [hy]))]

lemma jsParseFloat_digits_dot {a f : JSString} (ha : a ≠ [])
    (hda : ∀ x ∈ a, isDigit x = true) (hdf : ∀ x ∈ f, isDigit x = true) :
    jsParseFloat (a ++ '.' :: f) = .num (digitsToNat a + fracVal f) := by
  have hdot : isDigit '.' = false := by decide
  have htw : (a ++ '.' :: f).takeWhile isDigit = a :=
    takeWhile_append_stop hda hdot
  unfold jsParseFloat
  dsimp only
  rw [htw, if_neg (by simp [ha])]
  rw [List.drop_left]
  split
  · rename_i rest2 heq
    injection heq with h1 h2
    subst h2
    rw [List.takeWhile_eq_self_iff.mpr hdf]
  · rename_i hx
    exact absurd rfl (hx f)

/-- Postconditions transfer from a position matcher to its leftmost-match
search. -/
lemma firstMatch_post {α : Type} {P : α → Prop} {f : JSString → Option α}
    (hf : ∀ l r, f l = some r → P r) :
    ∀ l r, firstMatch f l = some r → P r := by
  intro l
  induction l with
  | nil => intro r h; exact hf [] r h
  | cons c rest ih =>
    intro r h
    unfold firstMatch at h
    revert h
    cases hfc : f (c :: rest) with
    | some x =>
      intro h
      injection h with h
      subst h
      exact hf _ _ hfc
    | none => intro h; exact ih r h

/-- Every capture triple produced by the `(\d+):(\d+):(\d+(\.\d+)?)` tail
parses as a number: the two `parseInt` captures and the `parseFloat`
capture are never `NaN`. -/
lemma matchHMSAt_good (l : JSString) (r : JSString × JSString × JSString)
    (hm : matchHMSAt l = some r) :
    (∃ hv : ℚ, parseInt10 r.1 = .num hv) ∧
    (∃ mv : ℚ, parseInt10 r.2.1 = .num mv) ∧
    (∃ sv : ℚ, jsParseFloat r.2.2 = .num sv) := by
  unfold matchHMSAt at hm
  simp only [Option.bind_eq_bind, Option.pure_def, Option.bind_eq_some] at hm
  obtain ⟨⟨h1, l1⟩, hs1, l2, hs2, ⟨m1, l3⟩, hs3, l4, hs4, ⟨s1, l5⟩, hs5,
    hfin⟩ := hm
  obtain ⟨hne1, hd1⟩ := takeWhile1_some hs1
  obtain ⟨hne3, hd3⟩ := takeWhile1_some hs3
  obtain ⟨hne5, hd5⟩ := takeWhile1_some hs5
  dsimp only at hfin
  split at hfin
  · rename_i rest
    split at hfin
    · rename_i f snd hts
      obtain ⟨hnef, hdf⟩ := takeWhile1_some hts
      injection hfin with hfin
      subst hfin
      exact ⟨⟨_, parseInt10_digits hne1 hd1⟩,
             ⟨_, parseInt10_digits hne3 hd3⟩,
             ⟨_, jsParseFloat_digits_dot hne5 hd5 hdf⟩⟩
    · injection hfin with hfin
      subst hfin
      exact ⟨⟨_, parseInt10_digits hne1 hd1⟩,
             ⟨_, parseInt10_digits hne3 hd3⟩,
             ⟨_, jsParseFloat_digits hne5 hd5⟩⟩
  · injection hfin with hfin
    subst hfin
    exact ⟨⟨_, parseInt10_digits hne1 hd1⟩,
           ⟨_, parseInt10_digits hne3 hd3⟩,
           ⟨_, jsParseFloat_digits hne5 hd5⟩⟩

lemma matchDurationAt_good (l : JSString) (r : JSString × JSString × JSString)
    (hm : matchDurationAt l = some r) :
    (∃ hv : ℚ, parseInt10 r.1 = .num hv) ∧
    (∃ mv : ℚ, parseInt10 r.2.1 = .num mv) ∧
    (∃ sv : ℚ, jsParseFloat r.2.2 = .num sv) := by
  unfold matchDurationAt at hm
  simp only [Option.bind_eq_bind, Option.bind_eq_some] at hm
  obtain ⟨l1, hexp, hhms⟩ := hm
  exact matchHMSAt_good l1 r hhms

lemma matchTimeAt_good (l : JSString) (r : JSString × JSString × JSString)
    (hm : matchTimeAt l = some r) :
    (∃ hv : ℚ, parseInt10 r.1 = .num hv) ∧
    (∃ mv : ℚ, parseInt10 r.2.1 = .num mv) ∧
    (∃ sv : ℚ, jsParseFloat r.2.2 = .num sv) := by
  unfold matchTimeAt at hm
  simp only [Option.bind_eq_bind, Option.bind_eq_some] at hm
  obtain ⟨l1, hexp, hhms⟩ := hm
  exact matchHMSAt_good l1 r hhms

lemma matchDuration_good (data : JSString) (r : JSString × JSString × JSString)
    (hm : matchDuration data = some r) :
    (∃ hv : ℚ, parseInt10 r.1 = .num hv) ∧
    (∃ mv : ℚ, parseInt10 r.2.1 = .num mv) ∧
    (∃ sv : ℚ, jsParseFloat r.2.2 = .num sv) :=
  firstMatch_post matchDurationAt_good data r hm

lemma matchTime_good (data : JSString) (r : JSString × JSString × JSString)
    (hm : matchTime data = some r) :
    (∃ hv : ℚ, parseInt10 r.1 = .num hv) ∧
    (∃ mv : ℚ, parseInt10 r.2.1 = .num mv) ∧
    (∃ sv : ℚ, jsParseFloat r.2.2 = .num sv) :=
  firstMatch_post matchTimeAt_good data r hm

/-! ### Value lemmas for the extraction steps -/

lemma stepFrame_none {p : FFMPEGProgress} {data : JSString}
    (h : matchFrame data = none) : stepFrame p data = p := by
  simp [stepFrame, h]

lemma stepFps_none {p : FFMPEGProgress} {data : JSString}
    (h : matchFps data = none) : stepFps p data = p := by
  simp [stepFps, h]

lemma stepQuality_none {p : FFMPEGProgress} {data : JSString}
    (h : matchQ data = none) : stepQuality p data = p := by
  simp [stepQuality, h]

lemma stepSize_none {p : FFMPEGProgress} {data : JSString}
    (h : matchSize data = none) : stepSize p data = p := by
  simp [stepSize, h]

lemma stepTime_none {p : FFMPEGProgress} {data : JSString}
    (h : matchTime data = none) : stepTime p data = p := by
  simp [stepTime, h]

lemma stepBitrate_none {p : FFMPEGProgress} {data : JSString}
    (h : matchBitrate data = none) : stepBitrate p data = p := by
  simp [stepBitrate, h]

lemma stepSpeed_none {p : FFMPEGProgress} {data : JSString}
    (h : matchSpeed data = none) : stepSpeed p data = p := by
  simp [stepSpeed, h]

lemma stepFrame_set {p : FFMPEGProgress} {data c : JSString}
    (h : matchFrame data = some c) :
    (stepFrame p data).frame = some (parseInt10 c) := by
  simp [stepFrame, h]

lemma stepFps_set {p : FFMPEGProgress} {data c : JSString}
    (h : matchFps data = some c) :
    (stepFps p data).fps = some (jsParseFloat c) := by
  simp [stepFps, h]

lemma stepQuality_set {p : FFMPEGProgress} {data c : JSString}
    (h : matchQ data = some c) :
    (stepQuality p data).quality = some (jsParseFloat c) := by
  simp [stepQuality, h]

lemma stepSize_set {p : FFMPEGProgress} {data c : JSString}
    (h : matchSize data = some c) :
    (stepSize p data).sizeKB = some (jsParseFloat c) := by
  simp [stepSize, h]

lemma stepBitrate_set {p : FFMPEGProgress} {data c : JSString}
    (h : matchBitrate data = some c) :
    (stepBitrate p data).bitrateKbps = some (jsParseFloat c) := by
  simp [stepBitrate, h]

lemma stepSpeed_set {p : FFMPEGProgress} {data c : JSString}
    (h : matchSpeed data = some c) :
    (stepSpeed p data).speed = some (jsParseFloat c) := by
  simp [stepSpeed, h]

lemma stepDuration_set {p : FFMPEGProgress} {data h m s : JSString}
    {hv mv sv : ℚ} (hdur : p.duration = none)
    (hmt : matchDuration data = some (h, m, s))
    (hh : parseInt10 h = .num hv) (hm : parseInt10 m = .num mv)
    (hs : jsParseFloat s = .num sv) :
    stepDuration p data =
      { p with duration := some (.num (hv * 3600 + mv * 60 + sv)) } := by
  simp [stepDuration, hdur, hmt, hh, hm, hs]

lemma stepTime_set {p : FFMPEGProgress} {data h m s : JSString}
    {hv mv sv d : ℚ} (hmt : matchTime data = some (h, m, s))
    (hh : parseInt10 h = .num hv) (hm : parseInt10 m = .num mv)
    (hs : jsParseFloat s = .num sv)
    (hdur : p.duration = some (.num d)) (hdpos : 0 < d) :
    (stepTime p data).timeInSeconds =
        some (.num (hv * 3600 + mv * 60 + sv)) ∧
    (stepTime p data).percent =
        some (.num ((hv * 3600 + mv * 60 + sv) / d * 100)) := by
  unfold stepTime
  rw [hmt]
  dsimp only
  rw [hh, hm, hs]
  dsimp only
  rw [if_pos (by simp [jsGtZero, hdur, hdpos]), hdur]
  exact ⟨rfl, rfl⟩

/-! ### Claim theorems -/

/-- Claim C1: a pending `start()` resolves to exactly one of success —
precisely when the process closed with exit code `0` — or failure carrying
the non-zero exit code paired with the current trailing-error-buffer
content as the message, with sentinel code `-1` substituted when the exit
code is `null`, and with the raised error's message and sentinel code `-1`
on a runtime error; and in every resolution path the process handle is
cleared, so `processing` is false, before the caller is resumed. -/
theorem C1_start_resolution (s : FFMPEG) (ev : ExitEvent) :
    ((s.resolveStart ev).1.processing = false) ∧
    ((s.resolveStart ev).2 = .ok ↔ ev = .close (some 0)) ∧
    (∀ c : ℤ, c ≠ 0 → ev = .close (some c) →
      (s.resolveStart ev).2 = .err { code := c, message := s.lastStderr }) ∧
    (ev = .close none →
      (s.resolveStart ev).2 = .err { code := -1, message := s.lastStderr }) ∧
    (∀ msg : JSString, ev = .error msg →
      (s.resolveStart ev).2 = .err { code := -1, message := msg }) := by
  cases ev with
  | close code =>
    cases code with
    | none => simp [FFMPEG.resolveStart, FFMPEG.processing]
    | some c =>
      by_cases hc : c = 0
      · subst hc
        simp [FFMPEG.resolveStart, FFMPEG.processing]
        exact fun c hc h => hc h.symm
      · simp [FFMPEG.resolveStart, FFMPEG.processing, hc, Option.getD]
  | error msg => simp [FFMPEG.resolveStart, FFMPEG.processing]

/-- Witness for C1 at a concrete failing run: exit code 2 yields a failure
carrying code 2 and the (empty) trailing buffer. -/
theorem C1_start_resolution_witness :
    ((FFMPEG.new [] none).resolveStart (.close (some 2))).2 =
      .err { code := 2, message := [] } := by
  have h := C1_start_resolution (FFMPEG.new [] none) (.close (some 2))
  have h2 := h.2.2.1 2 (by decide) rfl
  simpa [FFMPEG.new] using h2

/-- Claim C2: `stop(signal?)` returns true exactly when a live,
not-yet-killed process existed and the runtime accepted the termination
request, setting the sticky killed flag on that call; it returns false
without issuing the signal when the instance was not processing or was
already marked killed; a second `stop()` after a successful one returns
false with `killed` remaining true; and `stop()` on a never-started
instance returns false leaving `killed` false. -/
theorem C2_stop_semantics (s : FFMPEG) (a : Bool) :
    ((s.stop a).2.1 = true ↔
      s.processing = true ∧ s._killed = false ∧ a = true) ∧
    ((s.stop a).2.1 = true → ((s.stop a).1)._killed = true) ∧
    (s.processing = false ∨ s._killed = true →
      s.stop a = (s, false, false)) ∧
    (∀ b : Bool, (s.stop a).2.1 = true →
      (((s.stop a).1).stop b).2.1 = false ∧
      ((((s.stop a).1).stop b).1)._killed = true ∧
      (((s.stop a).1).stop b).2.2 = false) ∧
    (∀ (args : List JSString) (ep : Option JSString) (b : Bool),
      ((FFMPEG.new args ep).stop b).2.1 = false ∧
      (((FFMPEG.new args ep).stop b).1).killed = false) := by
  unfold FFMPEG.stop FFMPEG.processing FFMPEG.killed FFMPEG.new
  rcases hch : s.child with _ | u <;> cases hk : s._killed <;> cases a <;>
    simp [hch, hk]

/-- Witness for C2 at a concrete live, unkilled instance with the signal
accepted: `stop` returns true. -/
theorem C2_stop_semantics_witness :
    (({ (FFMPEG.new [] none) with child := some () } : FFMPEG).stop
      true).2.1 = true := by
  have h := C2_stop_semantics
    ({ (FFMPEG.new [] none) with child := some () } : FFMPEG) true
  exact h.1.mpr ⟨rfl, rfl, rfl⟩

/-- Claim C7: calling `start()` while the instance is processing fails
immediately with the "already started" error (code -1) and changes no
state at all: the returned state is the old state, so process handle,
trailing buffer, snapshot and killed flag are untouched. -/
theorem C7_already_started (s : FFMPEG) (spawn : SpawnOutcome)
    (h : s.processing = true) :
    s.start spawn =
      (s, .immediate
        (.err { code := -1,
                message := "FFMPEG process already started".toList })) := by
  unfold FFMPEG.start
  rw [if_pos h]

/-- Witness for C7 at a concrete processing instance. -/
theorem C7_already_started_witness :
    ({ (FFMPEG.new [] none) with child := some () } : FFMPEG).start .ok =
      ({ (FFMPEG.new [] none) with child := some () },
       .immediate
         (.err { code := -1,
                 message := "FFMPEG process already started".toList })) :=
  C7_already_started _ .ok rfl

/-- Claim C8: every `start()` call that passes the already-running check
clears the trailing-error buffer and resets the snapshot to all-unknown
(also on a second run on the same instance), and no operation —
`start`, run resolution, `stop`, or the stderr listener — ever resets the
killed flag to false once it is set. -/
theorem C8_reset_and_sticky (s : FFMPEG) :
    (∀ spawn : SpawnOutcome, s.processing = false →
      (s.start spawn).1.lastStderr = [] ∧
      (s.start spawn).1._progress = EmptyProgress) ∧
    (s._killed = true →
      (∀ spawn : SpawnOutcome, ((s.start spawn).1)._killed = true) ∧
      (∀ ev : ExitEvent, ((s.resolveStart ev).1)._killed = true) ∧
      (∀ a : Bool, ((s.stop a).1)._killed = true) ∧
      (∀ d : JSString, ((s.onStderrEvent d).1)._killed = true)) := by
  constructor
  · intro spawn h
    unfold FFMPEG.start
    rw [if_neg (by simp [h])]
    cases spawn <;> simp
  · intro hk
    refine ⟨?_, ?_, ?_, ?_⟩
    · intro spawn
      unfold FFMPEG.start
      split
      · exact hk
      · cases spawn <;> simp [hk]
    · intro ev
      cases ev <;> simp [FFMPEG.resolveStart, hk]
    · intro a
      unfold FFMPEG.stop
      split
      · split <;> simp [hk]
      · exact hk
    · intro d
      exact hk

/-- Witness for C8 at a concrete non-processing, already-killed instance:
a second `start` resets the buffer and the snapshot, and the flag stays
set across a `stop`. -/
theorem C8_reset_and_sticky_witness :
    (({ (FFMPEG.new [] none) with
         _killed := true, lastStderr := ('x' :: []) } : FFMPEG).start
         .ok).1.lastStderr = [] ∧
    ((({ (FFMPEG.new [] none) with
         _killed := true, lastStderr := ('x' :: []) } : FFMPEG).stop
         true).1)._killed = true := by
  have h := C8_reset_and_sticky
    ({ (FFMPEG.new [] none) with _killed := true, lastStderr := ('x' :: []) })
  exact ⟨(h.1 .ok rfl).1, (h.2 rfl).2.2.1 true⟩

/-- Claim C10: the killed flag becomes true exactly on the `stop()` calls
that return true: after any `stop`, `killed` equals the old flag or-ed
with the returned boolean; when a live unkilled process exists but the
runtime rejects the signal, `stop` returns false with `killed` still
false even though the signal was issued, and a later `stop` on the same
run can issue the signal again, successfully. -/
theorem C10_killed_transitions (s : FFMPEG) (a : Bool) :
    (((s.stop a).1)._killed = (s._killed || (s.stop a).2.1)) ∧
    ((s.stop a).2.1 = true ↔
      s.child.isSome = true ∧ s._killed = false ∧ a = true) ∧
    (s.child.isSome = true → s._killed = false →
      s.stop false = (s, false, true)) ∧
    (s.child.isSome = true → s._killed = false →
      ((s.stop false).1.stop true).2.1 = true ∧
      ((s.stop false).1.stop true).2.2 = true ∧
      (((s.stop false).1.stop true).1)._killed = true) := by
  unfold FFMPEG.stop
  rcases hch : s.child with _ | u <;> cases hk : s._killed <;> cases a <;>
    simp [hch, hk]

/-- Witness for C10 at a concrete live instance whose kill is rejected:
`stop` returns false, the flag stays false, the signal was issued, and a
retry that is accepted returns true. -/
theorem C10_killed_transitions_witness :
    ({ (FFMPEG.new [] none) with child := some () } : FFMPEG).stop false =
      ({ (FFMPEG.new [] none) with child := some () }, false, true) := by
  have h := C10_killed_transitions
    ({ (FFMPEG.new [] none) with child := some () } : FFMPEG) false
  exact h.2.2.1 rfl rfl

/-- Claim C9: for every diagnostic chunk, a `stderr` event carrying the
chunk verbatim is emitted first (before parsing), and a `progress` event
carrying the snapshot is emitted after processing the chunk if and only
if duration is known at that point; hence the `progress` event comes
strictly after that chunk's `stderr` event. -/
theorem C9_event_order (s : FFMPEG) (data : JSString) :
    ((s.onStderrEvent data).2).head? = some (.stderrData data) ∧
    (((s.onStderrEvent data).1)._progress.duration ≠ none →
      (s.onStderrEvent data).2 =
        [.stderrData data,
         .progressEvent ((s.onStderrEvent data).1)._progress]) ∧
    (((s.onStderrEvent data).1)._progress.duration = none →
      (s.onStderrEvent data).2 = [.stderrData data]) := by
  have hemit := onStderrData_emit s._progress data
  refine ⟨?_, ?_, ?_⟩
  · unfold FFMPEG.onStderrEvent
    rfl
  · intro hdur
    have hd : ((onStderrData s._progress data).1).duration ≠ none := hdur
    have h2 := hemit.1 hd
    unfold FFMPEG.onStderrEvent
    dsimp only
    rw [h2]
  · intro hdur
    have hd : ((onStderrData s._progress data).1).duration = none := hdur
    have h2 := hemit.2 hd
    unfold FFMPEG.onStderrEvent
    dsimp only
    rw [h2]

/-- Witness for C9 at a concrete chunk that discovers a duration: the
event list is exactly the `stderr` event followed by the `progress`
event. -/
theorem C9_event_order_witness :
    ((FFMPEG.new [] none).onStderrEvent
        ("Duration: 00:00:02".toList)).2 =
      [.stderrData ("Duration: 00:00:02".toList),
       .progressEvent ((FFMPEG.new [] none).onStderrEvent
          ("Duration: 00:00:02".toList)).1._progress] := by
  have h := C9_event_order (FFMPEG.new [] none) ("Duration: 00:00:02".toList)
  exact h.2.1 (by decide)

/-- Claim C6: during a run started on a non-processing instance, the
trailing-error buffer starts empty and, after any sequence of diagnostic
chunks, holds exactly the trailing `MAX_STDERR_LENGTH` (32000) characters
of the concatenation of all chunks of the run (oldest discarded from the
front), so its length never exceeds 32000. -/
theorem C6_trailing_buffer (s : FFMPEG) (chunks : List JSString)
    (h : s.processing = false) :
    ((s.start .ok).1.lastStderr = []) ∧
    ((chunks.foldl (fun t d => (t.onStderrEvent d).1)
        (s.start .ok).1).lastStderr =
      chunks.flatten.drop (chunks.flatten.length - MAX_STDERR_LENGTH)) ∧
    ((chunks.foldl (fun t d => (t.onStderrEvent d).1)
        (s.start .ok).1).lastStderr.length ≤ MAX_STDERR_LENGTH) := by
  have hreset : (s.start .ok).1.lastStderr = [] := by
    unfold FFMPEG.start
    rw [if_neg (by simp [h])]
  have hfold := foldl_bufStep chunks []
    (by simp [MAX_STDERR_LENGTH])
  have hmain : (chunks.foldl (fun t d => (t.onStderrEvent d).1)
      (s.start .ok).1).lastStderr =
      chunks.flatten.drop (chunks.flatten.length - MAX_STDERR_LENGTH) := by
    rw [runFold_lastStderr, hreset, hfold]
    simp
  refine ⟨hreset, hmain, ?_⟩
  rw [hmain, List.length_drop]
  omega

/-- Witness for C6 at a concrete short run: two chunks concatenate without
truncation. -/
theorem C6_trailing_buffer_witness :
    ((("ab".toList) :: ("cd".toList) :: []).foldl
        (fun t d => (t.onStderrEvent d).1)
        ((FFMPEG.new [] none).start .ok).1).lastStderr = "abcd".toList := by
  have h := C6_trailing_buffer (FFMPEG.new [] none)
    ((("ab".toList) :: ("cd".toList) :: [])) rfl
  rw [h.2.1]
  decide

/-- Claim C5: within a run, duration is discovered at most once — once
non-`null` it is never changed by a later chunk — and a chunk that
matches the duration pattern but no other field pattern sets `duration`
to `hours * 3600 + minutes * 60 + seconds` and leaves every other field
unknown. -/
theorem C5_duration_discovered_once :
    (∀ (p : FFMPEGProgress) (data : JSString), p.duration ≠ none →
      ((onStderrData p data).1).duration = p.duration) ∧
    (∀ (data h m s : JSString) (hv mv sv : ℚ),
      matchDuration data = some (h, m, s) →
      parseInt10 h = .num hv → parseInt10 m = .num mv →
      jsParseFloat s = .num sv →
      matchFrame data = none → matchFps data = none → matchQ data = none →
      matchSize data = none → matchTime data = none →
      matchBitrate data = none → matchSpeed data = none →
      (onStderrData EmptyProgress data).1 =
        { EmptyProgress with
          duration := some (.num (hv * 3600 + mv * 60 + sv)) }) := by
  constructor
  · exact onStderrData_duration_of_some
  · intro data h m s hv mv sv hmd hh hm hs hf hfps hq hsz ht hb hsp
    have hset := stepDuration_set (p := EmptyProgress) rfl hmd hh hm hs
    rw [onStderrData_eq, hset]
    rw [if_pos (by simp)]
    dsimp only
    unfold trackProgress
    rw [stepFrame_none hf, stepFps_none hfps, stepQuality_none hq,
        stepSize_none hsz, stepTime_none ht, stepBitrate_none hb,
        stepSpeed_none hsp]

/-- Witness for C5 at a concrete duration-only chunk. -/
theorem C5_duration_discovered_once_witness :
    (onStderrData EmptyProgress ("Duration: 01:02:03,".toList)).1 =
      { EmptyProgress with
        duration := some (.num ((1 : ℚ) * 3600 + 2 * 60 + 3)) } := by
  have h1 : parseInt10 ("01".toList) = .num 1 := by
    rw [parseInt10_digits (by decide) (by decide),
        show digitsToNat ("01".toList) = 1 from by decide]
    norm_num
  have h2 : parseInt10 ("02".toList) = .num 2 := by
    rw [parseInt10_digits (by decide) (by decide),
        show digitsToNat ("02".toList) = 2 from by decide]
    norm_num
  have h3 : jsParseFloat ("03".toList) = .num 3 := by
    rw [jsParseFloat_digits (by decide) (by decide),
        show digitsToNat ("03".toList) = 3 from by decide]
    norm_num
  exact C5_duration_discovered_once.2 ("Duration: 01:02:03,".toList)
    ("01".toList) ("02".toList) ("03".toList) 1 2 3
    (by decide) h1 h2 h3
    (by decide) (by decide) (by decide) (by decide) (by decide)
    (by decide) (by decide)

/-- Claim C4: at every point of a run starting from the empty snapshot,
`percent` is non-`null` only if `duration` is a strictly positive number;
and whenever an elapsed-time match (with parsable components) updates
`timeInSeconds` while the known duration is positive, `percent` is
recomputed as `timeInSeconds / duration * 100`. -/
theorem C4_percent_invariant :
    (∀ (chunks : List JSString) (x : JSNum),
      (applyChunks EmptyProgress chunks).percent = some x →
      ∃ d : ℚ, (applyChunks EmptyProgress chunks).duration =
          some (.num d) ∧ 0 < d) ∧
    (∀ (p : FFMPEGProgress) (data h m s : JSString) (hv mv sv d : ℚ),
      matchTime data = some (h, m, s) →
      parseInt10 h = .num hv → parseInt10 m = .num mv →
      jsParseFloat s = .num sv →
      (stepDuration p data).duration = some (.num d) → 0 < d →
      ((onStderrData p data).1).timeInSeconds =
          some (.num (hv * 3600 + mv * 60 + sv)) ∧
      ((onStderrData p data).1).percent =
          some (.num ((hv * 3600 + mv * 60 + sv) / d * 100))) := by
  constructor
  · intro chunks x hx
    exact applyChunks_percentInv chunks EmptyProgress percentInv_empty x hx
  · intro p data h m s hv mv sv d hmt hh hm hs hdur hdpos
    rw [onStderrData_eq, if_pos (by simp [hdur])]
    dsimp only
    have hdur4 : (stepSize (stepQuality (stepFps
        (stepFrame (stepDuration p data) data) data) data) data).duration =
        some (.num d) := by
      rw [stepSize_duration, stepQuality_duration, stepFps_duration,
          stepFrame_duration]
      exact hdur
    have hsett := stepTime_set hmt hh hm hs hdur4 hdpos
    unfold trackProgress
    constructor
    · rw [stepSpeed_timeInSeconds, stepBitrate_timeInSeconds]
      exact hsett.1
    · rw [stepSpeed_percent, stepBitrate_percent]
      exact hsett.2

/-- Witness for C4 at a concrete chunk carrying both the duration and an
elapsed time: percent is recomputed from them. -/
theorem C4_percent_invariant_witness :
    ((onStderrData EmptyProgress
        ("Duration: 00:00:10, time=00:00:05 ".toList)).1).percent =
      some (.num (((0 : ℚ) * 3600 + 0 * 60 + 5) / 10 * 100)) := by
  have h0 : parseInt10 ("00".toList) = .num 0 := by
    rw [parseInt10_digits (by decide) (by decide),
        show digitsToNat ("00".toList) = 0 from by decide]
    norm_num
  have h5 : jsParseFloat ("05".toList) = .num 5 := by
    rw [jsParseFloat_digits (by decide) (by decide),
        show digitsToNat ("05".toList) = 5 from by decide]
    norm_num
  have h10 : jsParseFloat ("10".toList) = .num 10 := by
    rw [jsParseFloat_digits (by decide) (by decide),
        show digitsToNat ("10".toList) = 10 from by decide]
    norm_num
  have hdur : (stepDuration EmptyProgress
      ("Duration: 00:00:10, time=00:00:05 ".toList)).duration =
      some (.num 10) := by
    rw [stepDuration_set (p := EmptyProgress) rfl (by decide) h0 h0 h10]
    norm_num
  exact (C4_percent_invariant.2 EmptyProgress
    ("Duration: 00:00:10, time=00:00:05 ".toList)
    ("00".toList) ("00".toList) ("05".toList) 0 0 5 10
    (by decide) h0 h0 h5 hdur (by norm_num)).2

/-- Claim C3 is false on the code: a matched quality substring `"."`
fails to parse (`parseFloat` yields `NaN`), yet processing the chunk
`"q=."` does not leave the field at its previous value — it stores `NaN`
into it. The pre-state is itself produced by a duration-discovering
chunk, so it is reachable. -/
theorem C3_counterexample :
    ((onStderrData EmptyProgress
        ("Duration: 00:00:10".toList)).1).quality = none ∧
    jsParseFloat ('.' :: []) = .nan ∧
    matchQ ("q=.".toList) = some ('.' :: []) ∧
    ((onStderrData
        (onStderrData EmptyProgress ("Duration: 00:00:10".toList)).1
        ("q=.".toList)).1).quality = some .nan := by
  exact ⟨by decide, by decide, by decide, by decide⟩

/-- Claim C3 (amended): the numeric captures of the duration and
elapsed-time patterns always parse, so their `isNaN` guards never discard
a matched update; but for the frame, fps, quality, size, bitrate and
speed fields the parsed value of a matched capture is stored
unconditionally — storing `NaN` when the numeric portion fails to parse,
rather than leaving the field at its previous value. In no case does
malformed progress text raise an error or fail the run. -/
theorem C3_parse_behaviour (p : FFMPEGProgress) (data : JSString)
    (hdur : p.duration ≠ none) :
    (∀ c, matchFrame data = some c →
      ((onStderrData p data).1).frame = some (parseInt10 c)) ∧
    (∀ c, matchFps data = some c →
      ((onStderrData p data).1).fps = some (jsParseFloat c)) ∧
    (∀ c, matchQ data = some c →
      ((onStderrData p data).1).quality = some (jsParseFloat c)) ∧
    (∀ c, matchSize data = some c →
      ((onStderrData p data).1).sizeKB = some (jsParseFloat c)) ∧
    (∀ c, matchBitrate data = some c →
      ((onStderrData p data).1).bitrateKbps = some (jsParseFloat c)) ∧
    (∀ c, matchSpeed data = some c →
      ((onStderrData p data).1).speed = some (jsParseFloat c)) ∧
    (∀ r, matchDuration data = some r →
      (∃ hv : ℚ, parseInt10 r.1 = .num hv) ∧
      (∃ mv : ℚ, parseInt10 r.2.1 = .num mv) ∧
      (∃ sv : ℚ, jsParseFloat r.2.2 = .num sv)) ∧
    (∀ r, matchTime data = some r →
      (∃ hv : ℚ, parseInt10 r.1 = .num hv) ∧
      (∃ mv : ℚ, parseInt10 r.2.1 = .num mv) ∧
      (∃ sv : ℚ, jsParseFloat r.2.2 = .num sv)) := by
  have hsd : stepDuration p data = p := stepDuration_of_some p data hdur
  refine ⟨?_, ?_, ?_, ?_, ?_, ?_,
          fun r hr => matchDuration_good data r hr,
          fun r hr => matchTime_good data r hr⟩
  · intro c hc
    rw [onStderrData_eq, hsd, if_pos hdur]
    dsimp only
    unfold trackProgress
    rw [stepSpeed_frame, stepBitrate_frame, stepTime_frame, stepSize_frame,
        stepQuality_frame, stepFps_frame]
    exact stepFrame_set hc
  · intro c hc
    rw [onStderrData_eq, hsd, if_pos hdur]
    dsimp only
    unfold trackProgress
    rw [stepSpeed_fps, stepBitrate_fps, stepTime_fps, stepSize_fps,
        stepQuality_fps]
    exact stepFps_set hc
  · intro c hc
    rw [onStderrData_eq, hsd, if_pos hdur]
    dsimp only
    unfold trackProgress
    rw [stepSpeed_quality, stepBitrate_quality, stepTime_quality,
        stepSize_quality]
    exact stepQuality_set hc
  · intro c hc
    rw [onStderrData_eq, hsd, if_pos hdur]
    dsimp only
    unfold trackProgress
    rw [stepSpeed_sizeKB, stepBitrate_sizeKB, stepTime_sizeKB]
    exact stepSize_set hc
  · intro c hc
    rw [onStderrData_eq, hsd, if_pos hdur]
    dsimp only
    unfold trackProgress
    rw [stepSpeed_bitrateKbps]
    exact stepBitrate_set hc
  · intro c hc
    rw [onStderrData_eq, hsd, if_pos hdur]
    dsimp only
    unfold trackProgress
    exact stepSpeed_set hc

/-- Witness for the amended C3 at the concrete chunk `"q=."`: the matched
capture `"."` parses to `NaN` and is stored. -/
theorem C3_parse_behaviour_witness :
    ((onStderrData
        ({ EmptyProgress with duration := some (.num 10) } : FFMPEGProgress)
        ("q=.".toList)).1).quality = some JSNum.nan := by
  have h := (C3_parse_behaviour
      ({ EmptyProgress with duration := some (.num 10) } : FFMPEGProgress)
      ("q=.".toList) (by simp)).2.2.1 ('.' :: []) (by decide)
  rw [h]
  decide

end FfmpegTs
